import Mathlib

/-!
Verification of the stock-scanner program (`stock_scanner.py`).

Shallow embedding conventions:
* Python/numpy floats are modelled exactly: a float value is either a
  rational number or the not-a-number sentinel (`EFloat.nan`).  Comparisons
  against `nan` are `false`, and arithmetic with a `nan` operand yields
  `nan`, matching IEEE-754 semantics used by Python floats.
* Division by the float `0.0` raises `ZeroDivisionError` in Python; the
  embedding makes such a division return `none` (the raised exception),
  while division by `nan` or by a nonzero value succeeds.
* A pandas financial-statement table is a list of rows keyed by line-item
  name; `df.loc[name]` is a first-match lookup (row names are unique in
  the statements consulted here) and a missing key is a raised `KeyError`.
* A date-indexed return series is a list of (date, value) pairs with
  unique dates; `pd.concat(..., join="inner")` is the inner join on dates,
  in the order of the first series.
* The Sortino ratio's true value is `num / Real.sqrt msq` where `num` is
  the mean excess return and `msq` the mean square of the downside
  returns; since `Real.sqrt` is not computable the embedding carries the
  pair `(num, msq)` and decides the comparison `num / √msq > t` exactly
  over the rationals (`sortinoGtB`), with a proof (`sortinoGtB_iff`) that
  this Boolean agrees with the real-valued comparison.
* A fetch that raises is an `Except.error` input to the ticker evaluator;
  the evaluator's enclosing `try/except` turns any error into `none`
  ("no record").
-/

/-- A Python float: either a rational value or not-a-number. -/
inductive EFloat where
  | nan : EFloat
  | val : ℚ → EFloat
deriving DecidableEq, Repr

namespace EFloat

/-- Float comparison `a < t` against a (never-nan) threshold: `nan` compares false. -/
def ltB : EFloat → ℚ → Bool
  | nan, _ => false
  | val x, t => decide (x < t)

/-- Float comparison `a > t` against a (never-nan) threshold: `nan` compares false. -/
def gtB : EFloat → ℚ → Bool
  | nan, _ => false
  | val x, t => decide (t < x)

/-- Float subtraction: `nan` propagates. -/
def sub : EFloat → EFloat → EFloat
  | val a, val b => val (a - b)
  | _, _ => nan

/-- Float addition: `nan` propagates. -/
def add : EFloat → EFloat → EFloat
  | val a, val b => val (a + b)
  | _, _ => nan

/-- Float multiplication: `nan` propagates. -/
def mul : EFloat → EFloat → EFloat
  | val a, val b => val (a * b)
  | _, _ => nan

/-- Float absolute value: `abs(nan) = nan`. -/
def eabs : EFloat → EFloat
  | nan => nan
  | val a => val |a|

/-- Float division.  Dividing by the float `0.0` raises `ZeroDivisionError`
(modelled as `none`); dividing by `nan` yields `nan`; otherwise `nan`
propagates and values divide exactly. -/
def div : EFloat → EFloat → Option EFloat
  | a, val q =>
    if q = 0 then none
    else match a with
      | val p => some (val (p / q))
      | nan => some nan
  | _, nan => some nan

end EFloat

/-- A financial-statement table: rows keyed by line-item name, each row the
period values, most recent first (`df.loc[name]` / `.iloc[i]`). -/
abbrev Table := List (String × List EFloat)

/-- Embedding of `df.loc[name]`: first row whose name matches, or a raised
`KeyError` (`none`) when the line item is absent. -/
def locRow (df : Table) (name : String) : Option (List EFloat) :=
  (df.find? (fun r => r.1 == name)).map (fun r => r.2)

/-- Embedding of `df.loc[name].iloc[0]`: the most recent period's value;
`none` models the raised `KeyError`/`IndexError` when the row is absent or
empty. -/
def loc0 (df : Table) (name : String) : Option EFloat :=
  match locRow df name with
  | none => none
  | some [] => none
  | some (v :: _) => some v

/-- Embedding of `growth` (stock_scanner.py, lines 79-84): YoY growth of a
named line item, `(latest - prev) / abs(prev) * 100` over the two most
recent periods; any raised error (absent line item, fewer than two periods,
division by zero) is caught and becomes `nan`. -/
def growth (df : Table) (metric : String) : EFloat :=
  match locRow df metric with
  | none => EFloat.nan
  | some row =>
    match row with
    | latest :: prev :: _ =>
      match EFloat.div (EFloat.sub latest prev) (EFloat.eabs prev) with
      | none => EFloat.nan
      | some v => EFloat.mul v (EFloat.val 100)
    | _ => EFloat.nan

/-- Mean of a list of rationals (`Series.mean`); the empty case is never
consulted by callers on the defined path. -/
def listMean (l : List ℚ) : ℚ := l.sum / l.length

/-- The downside sub-series `returns[returns < rf]`. -/
def downsideOf (returns : List ℚ) (rf : ℚ) : List ℚ :=
  returns.filter (fun x => decide (x < rf))

/-- Mean square of the downside returns, `(downside ** 2).mean()`;
`none` models the `nan` mean of an empty series. -/
def downsideMSq (returns : List ℚ) (rf : ℚ) : Option ℚ :=
  let d := downsideOf returns rf
  if d.isEmpty then none
  else some (listMean (d.map (fun x => x * x)))

/-- Embedding of `sortino_ratio` (stock_scanner.py, lines 43-49).  The
Python function returns `nan` when the downside deviation
`sqrt((downside ** 2).mean())` is `0` or `nan`, and otherwise the float
`(returns.mean() - rf) / downside_dev`.  Since the downside deviation is
`√msq` with `msq ≥ 0`, it is `nan` exactly when the downside series is
empty and `0` exactly when `msq = 0`; the embedding returns `none` in the
`nan` cases and otherwise the pair `(returns.mean() - rf, msq)`, whose
real value is `(returns.mean() - rf) / Real.sqrt msq`. -/
def sortino_ratio (returns : List ℚ) (rf : ℚ := 0) : Option (ℚ × ℚ) :=
  match downsideMSq returns rf with
  | none => none
  | some msq =>
    if msq = 0 then none
    else some (listMean returns - rf, msq)

/-- The real value represented by a defined Sortino result. -/
noncomputable def sortinoValue (p : ℚ × ℚ) : ℝ :=
  (p.1 : ℝ) / Real.sqrt (p.2 : ℝ)

/-- Decides `num / √msq > t` exactly over the rationals, for `msq > 0`. -/
def sortinoGtB (num msq t : ℚ) : Bool :=
  if t = 0 then decide (0 < num)
  else if 0 < t then decide (0 < num) && decide (t * t * msq < num * num)
  else decide (0 ≤ num) || decide (num * num < t * t * msq)

/-- Comparison `sortino > t` on a possibly-undefined Sortino result:
`nan` (i.e. `none`) compares false. -/
def sortGtB : Option (ℚ × ℚ) → ℚ → Bool
  | none, _ => false
  | some (num, msq), t => sortinoGtB num msq t

/-- Embedding of `annualise` (stock_scanner.py, lines 52-53):
`value * periods_per_year`, with `nan` propagating. -/
def annualise (value : EFloat) (periods_per_year : ℚ := 252) : EFloat :=
  EFloat.mul value (EFloat.val periods_per_year)

/-- A date-indexed daily return series: (date, fractional return) pairs
with unique dates. -/
abbrev Series := List (ℤ × ℚ)

/-- Inner join of two date-indexed series on their dates
(`pd.concat([returns, benchmark], axis=1, join="inner")`), in the order of
the first series; each element is `(y, x) = (ticker return, benchmark
return)` for one common date. -/
def alignSeries (returns benchmark : Series) : List (ℚ × ℚ) :=
  returns.filterMap (fun p =>
    match benchmark.find? (fun q => q.1 == p.1) with
    | none => none
    | some q => some (p.2, q.2))

/-- Sum of the x-components of an aligned series. -/
def sumX (l : List (ℚ × ℚ)) : ℚ := (l.map (fun p => p.2)).sum

/-- Sum of the y-components of an aligned series. -/
def sumY (l : List (ℚ × ℚ)) : ℚ := (l.map (fun p => p.1)).sum

/-- Sum of squares of the x-components. -/
def sumXX (l : List (ℚ × ℚ)) : ℚ := (l.map (fun p => p.2 * p.2)).sum

/-- Sum of the products x·y. -/
def sumXY (l : List (ℚ × ℚ)) : ℚ := (l.map (fun p => p.2 * p.1)).sum

/-- OLS slope of y on x: `(n·Σxy − Σx·Σy) / (n·Σx² − (Σx)²)`. -/
def olsSlope (l : List (ℚ × ℚ)) : ℚ :=
  ((l.length : ℚ) * sumXY l - sumX l * sumY l) /
    ((l.length : ℚ) * sumXX l - sumX l * sumX l)

/-- OLS intercept of y on x: `ȳ − slope·x̄`. -/
def olsIntercept (l : List (ℚ × ℚ)) : ℚ :=
  (sumY l - olsSlope l * sumX l) / (l.length : ℚ)

/-- Embedding of `get_alpha` (stock_scanner.py, lines 56-63): align the two
series by date; if the overlap has fewer than 30 observations return `nan`;
otherwise `scipy.stats.linregress(x, y)` — which raises `ValueError` when
all x-values are identical (modelled as `Except.error`), and otherwise
returns the OLS intercept. -/
def get_alpha (returns benchmark : Series) : Except String EFloat :=
  let aligned := alignSeries returns benchmark
  if aligned.length < 30 then .ok EFloat.nan
  else
    if aligned.all (fun p => p.2 == (aligned.headI).2) then
      .error "ValueError"
    else
      .ok (EFloat.val (olsIntercept aligned))

/-- Embedding of `get_croci` (stock_scanner.py, lines 66-76):
`(CFO − CapEx) / (equity + debt) * 100` from the most recent period; any
raised error (absent line item, empty row, division by the float zero) is
caught and becomes `nan`. -/
def get_croci (cash_flow balance : Table) : EFloat :=
  match loc0 cash_flow "Total Cash From Operating Activities" with
  | none => EFloat.nan
  | some cfo =>
    match loc0 cash_flow "Capital Expenditures" with
    | none => EFloat.nan
    | some capex =>
      match loc0 balance "Total Stockholder Equity" with
      | none => EFloat.nan
      | some equity =>
        match loc0 balance "Total Debt" with
        | none => EFloat.nan
        | some debt =>
          match EFloat.div (EFloat.sub cfo capex) (EFloat.add equity debt) with
          | none => EFloat.nan
          | some v => EFloat.mul v (EFloat.val 100)

/-- The user-supplied threshold configuration (the `thr` dict; every entry
is a finite float from a number input). -/
structure Thresholds where
  pe : ℚ
  ev : ℚ
  rev : ℚ
  eps : ℚ
  sortino : ℚ
  alpha : ℚ
  croci : ℚ
deriving DecidableEq, Repr

/-- The default threshold values of the sidebar inputs. -/
def defaultThr : Thresholds :=
  { pe := 15, ev := 12, rev := 10, eps := 10, sortino := 1, alpha := 0, croci := 15 }

/-- The seven computed metric values entering the pass predicate. -/
structure MetricValues where
  pe : EFloat
  ev : EFloat
  rev : EFloat
  eps : EFloat
  sortino : Option (ℚ × ℚ)
  alpha : EFloat
  croci : EFloat
deriving DecidableEq, Repr

/-- Embedding of the composite pass predicate (stock_scanner.py,
lines 113-119):
`(pe < thr.pe or ev < thr.ev) and (rev > thr.rev and eps > thr.eps) and
sortino > thr.sortino and alpha > thr.alpha and croci > thr.croci`. -/
def passPredicate (m : MetricValues) (thr : Thresholds) : Bool :=
  (EFloat.ltB m.pe thr.pe || EFloat.ltB m.ev thr.ev)
    && (EFloat.gtB m.rev thr.rev && EFloat.gtB m.eps thr.eps)
    && sortGtB m.sortino thr.sortino
    && EFloat.gtB m.alpha thr.alpha
    && EFloat.gtB m.croci thr.croci

/-- One scan result record (the dict returned by `scan_ticker`). -/
structure Record where
  ticker : String
  pe : EFloat
  ev : EFloat
  rev : EFloat
  eps : EFloat
  sortino : Option (ℚ × ℚ)
  alpha : EFloat
  croci : EFloat
  pass : Bool
deriving DecidableEq, Repr

/-- The data fetched for one ticker: the derived daily return series
(`pct_change().dropna()`), the snapshot info dict, and the three
statement tables. -/
structure FetchResult where
  hist : Series
  info : List (String × EFloat)
  fin : Table
  cashflow : Table
  balance : Table

/-- Embedding of `info.get(key, np.nan)`. -/
def infoGet (info : List (String × EFloat)) (key : String) : EFloat :=
  match info.find? (fun p => p.1 == key) with
  | none => EFloat.nan
  | some p => p.2

/-- The body of `scan_ticker` inside its `try` (stock_scanner.py, lines
94-131): an `Except.error` is an uncaught exception in flight (from the
fetch itself, or from `linregress` on degenerate data). -/
def scanBody (ticker : String) (input : Except String FetchResult)
    (benchmark : Series) (thr : Thresholds) : Except String (Option Record) :=
  match input with
  | .error e => .error e
  | .ok fr =>
    if fr.hist.length < 252 then .ok none
    else
      let pe := infoGet fr.info "trailingPE"
      let ev := infoGet fr.info "enterpriseToEbitda"
      let revGrowth := growth fr.fin "Total Revenue"
      let epsGrowth := growth fr.fin "Diluted EPS"
      let sortino := sortino_ratio (fr.hist.map (fun p => p.2)) 0
      match get_alpha fr.hist benchmark with
      | .error e => .error e
      | .ok alphaRaw =>
        let alpha := annualise alphaRaw 252
        let croci := get_croci fr.cashflow fr.balance
        let m : MetricValues :=
          { pe := pe, ev := ev, rev := revGrowth, eps := epsGrowth,
            sortino := sortino, alpha := alpha, croci := croci }
        .ok (some
          { ticker := ticker, pe := pe, ev := ev, rev := revGrowth,
            eps := epsGrowth, sortino := sortino, alpha := alpha,
            croci := croci, pass := passPredicate m thr })

/-- Embedding of `scan_ticker` (stock_scanner.py, lines 89-133): the whole
body runs under `try/except Exception: return None`, so any raised
exception becomes the "no record" outcome. -/
def scan_ticker (ticker : String) (input : Except String FetchResult)
    (benchmark : Series) (thr : Thresholds) : Option Record :=
  match scanBody ticker input benchmark thr with
  | .error _ => none
  | .ok r => r

/-- Embedding of the scan loop (stock_scanner.py, lines 211-216): evaluate
each ticker and collect the non-`None` records in order. -/
def scanLoop (inputs : List (String × Except String FetchResult))
    (benchmark : Series) (thr : Thresholds) : List Record :=
  inputs.filterMap (fun p => scan_ticker p.1 p.2 benchmark thr)

/-- A presented result row: a record with the pass flag column dropped. -/
structure PresentedRow where
  ticker : String
  pe : EFloat
  ev : EFloat
  rev : EFloat
  eps : EFloat
  sortino : Option (ℚ × ℚ)
  alpha : EFloat
  croci : EFloat
deriving DecidableEq, Repr

/-- Drop the pass flag column from a record. -/
def dropPass (r : Record) : PresentedRow :=
  { ticker := r.ticker, pe := r.pe, ev := r.ev, rev := r.rev, eps := r.eps,
    sortino := r.sortino, alpha := r.alpha, croci := r.croci }

/-- The `sort_values("Alpha", ascending=False)` key order: larger alpha
first, `nan` alphas last. -/
def alphaDescB (a b : PresentedRow) : Bool :=
  match a.alpha, b.alpha with
  | EFloat.val x, EFloat.val y => decide (y ≤ x)
  | EFloat.val _, EFloat.nan => true
  | EFloat.nan, EFloat.val _ => false
  | EFloat.nan, EFloat.nan => true

/-- Embedding of the presentation step (stock_scanner.py, lines 220-224):
keep rows with `Pass == True`, drop the `Pass` column, sort by alpha
descending. -/
def presentResults (rows : List Record) : List PresentedRow :=
  (((rows.filter (fun r => r.pass)).map dropPass).mergeSort alphaDescB)

/-- Sum of the regression residuals `y - (a + b·x)` over an aligned series,
used to state the ordinary-least-squares normal equations for the
intercept `a` and slope `b`. -/
def residSum (l : List (ℚ × ℚ)) (a b : ℚ) : ℚ :=
  (l.map (fun p => p.1 - (a + b * p.2))).sum

/-- Sum of the x-weighted regression residuals `x·(y - (a + b·x))` over an
aligned series (the second normal equation). -/
def residSumX (l : List (ℚ × ℚ)) (a b : ℚ) : ℚ :=
  (l.map (fun p => p.2 * (p.1 - (a + b * p.2)))).sum

/-- Fixture: fetched data with a 252-observation return series (constant
positive returns, so no downside) and empty info and statement tables, so
every metric computes to its undefined value. -/
def wideFetch : FetchResult :=
  { hist := (List.range 252).map (fun i => ((i : ℤ), (1 : ℚ))),
    info := [], fin := [], cashflow := [], balance := [] }

/-- Fixture: fetched data with exactly 251 daily return observations. -/
def shortFetch : FetchResult :=
  { hist := (List.range 251).map (fun i => ((i : ℤ), (1 : ℚ))),
    info := [], fin := [], cashflow := [], balance := [] }

/-- Fixture: a 31-day date-indexed series with distinct values, used to
exercise the regression path of `get_alpha`. -/
def rampSeries : Series := (List.range 31).map (fun i => ((i : ℤ), (i : ℚ)))

/-- Fixture: the record produced by scanning `wideFetch` data — every
metric undefined, pass flag `false`. -/
def undefRecord (ticker : String) : Record :=
  { ticker := ticker, pe := .nan, ev := .nan, rev := .nan, eps := .nan,
    sortino := none, alpha := .nan, croci := .nan, pass := false }

/-! ## Helper lemmas -/

/-- The Boolean `sortinoGtB` decides the real comparison `num / √msq > t`. -/
lemma sortinoGtB_iff (num msq t : ℚ) (h : 0 < msq) :
    sortinoGtB num msq t = true ↔ (t : ℝ) < (num : ℝ) / Real.sqrt (msq : ℝ) := by
  have hmsq : (0 : ℝ) < (msq : ℝ) := by exact_mod_cast h
  have hs : 0 < Real.sqrt (msq : ℝ) := Real.sqrt_pos.mpr hmsq
  have hs2 : Real.sqrt (msq : ℝ) ^ 2 = (msq : ℝ) := Real.sq_sqrt hmsq.le
  rw [lt_div_iff₀ hs]
  unfold sortinoGtB
  split_ifs with ht0 htpos
  · subst ht0
    simp only [decide_eq_true_eq, Rat.cast_zero, zero_mul]
    constructor
    · intro hn
      exact_mod_cast hn
    · intro hn
      exact_mod_cast hn
  · simp only [Bool.and_eq_true, decide_eq_true_eq]
    have htR : (0 : ℝ) < (t : ℝ) := by exact_mod_cast htpos
    constructor
    · rintro ⟨hn, hsq⟩
      have hnR : (0 : ℝ) < (num : ℝ) := by exact_mod_cast hn
      have hsqR : (t : ℝ) * (t : ℝ) * (msq : ℝ) < (num : ℝ) * (num : ℝ) := by
        exact_mod_cast hsq
      by_contra hc
      push_neg at hc
      have hts : 0 < (t : ℝ) * Real.sqrt (msq : ℝ) := mul_pos htR hs
      nlinarith [mul_le_mul hc hc hnR.le hts.le, hs2, hsqR]
    · intro hlt
      have hts : 0 < (t : ℝ) * Real.sqrt (msq : ℝ) := mul_pos htR hs
      have hnR : (0 : ℝ) < (num : ℝ) := lt_trans hts hlt
      refine ⟨by exact_mod_cast hnR, ?_⟩
      have key : (t : ℝ) * (t : ℝ) * (msq : ℝ) < (num : ℝ) * (num : ℝ) := by
        nlinarith [mul_lt_mul hlt hlt.le hts hnR.le, hs2]
      exact_mod_cast key
  · have htneg : t < 0 := lt_of_le_of_ne (not_lt.mp htpos) ht0
    have htR : (t : ℝ) < 0 := by exact_mod_cast htneg
    have hts : (t : ℝ) * Real.sqrt (msq : ℝ) < 0 := mul_neg_of_neg_of_pos htR hs
    simp only [Bool.or_eq_true, decide_eq_true_eq]
    constructor
    · rintro (hn | hsq)
      · have hnR : (0 : ℝ) ≤ (num : ℝ) := by exact_mod_cast hn
        exact lt_of_lt_of_le hts hnR
      · have hsqR : (num : ℝ) * (num : ℝ) < (t : ℝ) * (t : ℝ) * (msq : ℝ) := by
          exact_mod_cast hsq
        by_contra hc
        push_neg at hc
        have hnneg : (num : ℝ) < 0 := lt_of_le_of_lt hc hts
        nlinarith [mul_nonneg (sub_nonneg.mpr hc)
          (by linarith : (0 : ℝ) ≤ -((t : ℝ) * Real.sqrt (msq : ℝ) + (num : ℝ))), hs2, hsqR]
    · intro hlt
      by_cases hn : 0 ≤ num
      · exact Or.inl hn
      · refine Or.inr ?_
        have hnR : (num : ℝ) < 0 := by exact_mod_cast not_le.mp hn
        have key : (num : ℝ) * (num : ℝ) < (t : ℝ) * (t : ℝ) * (msq : ℝ) := by
          nlinarith [mul_pos (sub_pos.mpr hlt)
            (by linarith : (0 : ℝ) < -((num : ℝ) + (t : ℝ) * Real.sqrt (msq : ℝ))), hs2]
        exact_mod_cast key

/-- If the ticker evaluator returns a record, its body returned that record. -/
lemma scanBody_of_scan_ticker_eq_some {ticker : String} {input : Except String FetchResult}
    {benchmark : Series} {thr : Thresholds} {r : Record}
    (h : scan_ticker ticker input benchmark thr = some r) :
    scanBody ticker input benchmark thr = .ok (some r) := by
  unfold scan_ticker at h
  cases hb : scanBody ticker input benchmark thr with
  | error e => rw [hb] at h; simp at h
  | ok o => rw [hb] at h; cases o <;> simp_all

/-- Structure of a record returned by the evaluator body: its fields are the
computed metrics and its pass flag is the composite predicate over them. -/
lemma scanBody_record {ticker : String} {input : Except String FetchResult}
    {benchmark : Series} {thr : Thresholds} {r : Record}
    (h : scanBody ticker input benchmark thr = .ok (some r)) :
    r.ticker = ticker ∧
    r.pass = passPredicate
      { pe := r.pe, ev := r.ev, rev := r.rev, eps := r.eps,
        sortino := r.sortino, alpha := r.alpha, croci := r.croci } thr := by
  unfold scanBody at h
  cases input with
  | error e => simp at h
  | ok fr =>
    by_cases hlen : fr.hist.length < 252
    · simp [hlen] at h
    · simp only [if_neg hlen] at h
      cases halpha : get_alpha fr.hist benchmark with
      | error e => rw [halpha] at h; simp at h
      | ok alphaRaw =>
        rw [halpha] at h
        simp only [Except.ok.injEq, Option.some.injEq] at h
        subst h
        exact ⟨rfl, rfl⟩

/-! ## Claim theorems -/

unseal Rat.mul in
/-- C1: whenever the ticker evaluator produces a Scan Result Record, the
record's pass flag equals the composite predicate
`(PE < max_pe ∨ EV/EBITDA < max_ev) ∧ rev > min_rev ∧ eps > min_eps ∧
sortino > min_sortino ∧ alpha > min_alpha ∧ croci > min_croci` over the
computed metric values and the supplied thresholds; with the default
thresholds, metric values PE=10, EV/EBITDA=20, rev=15, eps=12,
Sortino=1.2 (= 6/5 / √1), alpha=0.02, CROCI=18 give pass = true, and the
same values with PE=20 give pass = false. -/
theorem c1_pass_flag_is_composite_predicate :
    (∀ (ticker : String) (input : Except String FetchResult) (benchmark : Series)
        (thr : Thresholds) (r : Record),
        scan_ticker ticker input benchmark thr = some r →
        r.pass = passPredicate
          { pe := r.pe, ev := r.ev, rev := r.rev, eps := r.eps,
            sortino := r.sortino, alpha := r.alpha, croci := r.croci } thr)
    ∧ passPredicate
        { pe := .val 10, ev := .val 20, rev := .val 15, eps := .val 12,
          sortino := some (mkRat 6 5, 1), alpha := .val (mkRat 1 50), croci := .val 18 }
        defaultThr = true
    ∧ passPredicate
        { pe := .val 20, ev := .val 20, rev := .val 15, eps := .val 12,
          sortino := some (mkRat 6 5, 1), alpha := .val (mkRat 1 50), croci := .val 18 }
        defaultThr = false := by
  refine ⟨?_, by decide, by decide⟩
  intro ticker input benchmark thr r h
  exact (scanBody_record (scanBody_of_scan_ticker_eq_some h)).2

set_option maxRecDepth 4000 in
/-- Witness for C1 at a concrete input: a full scan of one ticker whose
fetched data yields all-undefined metrics still returns a record, and the
theorem applies to it. -/
theorem c1_witness :
    (Record.pass
        { ticker := "W1", pe := .nan, ev := .nan, rev := .nan, eps := .nan,
          sortino := none, alpha := .nan, croci := .nan, pass := false }) =
      passPredicate
        { pe := .nan, ev := .nan, rev := .nan, eps := .nan,
          sortino := none, alpha := .nan, croci := .nan } defaultThr :=
  c1_pass_flag_is_composite_predicate.1 "W1"
    (.ok { hist := (List.range 252).map (fun i => ((i : ℤ), (1 : ℚ))),
           info := [], fin := [], cashflow := [], balance := [] })
    [] defaultThr
    { ticker := "W1", pe := .nan, ev := .nan, rev := .nan, eps := .nan,
      sortino := none, alpha := .nan, croci := .nan, pass := false }
    (by decide)

unseal Rat.mul in
/-- C2 counterexample: with the default thresholds, an assignment in which
the PE comparand is undefined (`nan`) but EV/EBITDA passes, and every other
metric passes, makes the composite pass predicate `true` — refuting the
claim that the predicate is `false` whenever any comparand is undefined. -/
theorem c2_counterexample :
    passPredicate
      { pe := .nan, ev := .val 5, rev := .val 15, eps := .val 12,
        sortino := some (2, 1), alpha := .val 1, croci := .val 20 }
      defaultThr = true := by
  decide

/-- C2 (amended): for every threshold configuration and every metric
assignment, the composite pass predicate is `false` whenever revenue
growth, EPS growth, Sortino, alpha, or CROCI is undefined, or whenever
both valuation comparands (PE and EV/EBITDA) are undefined.  An undefined
comparand never satisfies its own comparison, and the predicate never
errors (it is a total Boolean function); but a single undefined valuation
comparand does not force the predicate `false` when the other valuation
comparison passes. -/
theorem c2_pass_false_of_undefined (m : MetricValues) (thr : Thresholds)
    (h : m.rev = .nan ∨ m.eps = .nan ∨ m.sortino = none ∨ m.alpha = .nan ∨
      m.croci = .nan ∨ (m.pe = .nan ∧ m.ev = .nan)) :
    passPredicate m thr = false := by
  unfold passPredicate
  rcases h with h | h | h | h | h | ⟨h1, h2⟩
  · rw [h]; simp [EFloat.gtB]
  · rw [h]; simp [EFloat.gtB]
  · rw [h]; simp [sortGtB]
  · rw [h]; simp [EFloat.gtB]
  · rw [h]; simp [EFloat.gtB]
  · rw [h1, h2]; simp [EFloat.ltB]

/-- Witness for the amended C2 at a concrete input: all metrics pass except
that both valuation comparands are undefined, and the predicate is false. -/
theorem c2_witness :
    passPredicate
      { pe := .nan, ev := .nan, rev := .val 99, eps := .val 99,
        sortino := some (99, 1), alpha := .val 99, croci := .val 99 }
      defaultThr = false :=
  c2_pass_false_of_undefined _ defaultThr (Or.inr (Or.inr (Or.inr (Or.inr
    (Or.inr ⟨rfl, rfl⟩)))))

/-- C3: the YoY growth function returns `nan` when the line item is absent,
when fewer than two periods exist, or when the previous-period value is the
float zero (the division raises and is caught; the result is `nan`, not
infinity) — and otherwise, on defined values, it returns
`(latest - prev) / |prev| * 100`. -/
theorem c3_growth_spec :
    (∀ (df : Table) (metric : String), locRow df metric = none →
        growth df metric = EFloat.nan)
    ∧ (∀ (df : Table) (metric : String) (row : List EFloat),
        locRow df metric = some row → row.length < 2 →
        growth df metric = EFloat.nan)
    ∧ (∀ (df : Table) (metric : String) (latest : EFloat) (rest : List EFloat),
        locRow df metric = some (latest :: EFloat.val 0 :: rest) →
        growth df metric = EFloat.nan)
    ∧ (∀ (df : Table) (metric : String) (p q : ℚ) (rest : List EFloat),
        locRow df metric = some (EFloat.val p :: EFloat.val q :: rest) →
        q ≠ 0 →
        growth df metric = EFloat.val ((p - q) / |q| * 100)) := by
  refine ⟨?_, ?_, ?_, ?_⟩
  · intro df metric h
    unfold growth
    rw [h]
  · intro df metric row h hlen
    unfold growth
    rw [h]
    match row, hlen with
    | [], _ => rfl
    | [x], _ => rfl
    | x :: y :: rest, hlen =>
      exact absurd hlen (by simp only [List.length_cons, not_lt]; omega)
  · intro df metric latest rest h
    unfold growth
    rw [h]
    cases latest <;> simp [EFloat.div, EFloat.sub, EFloat.eabs]
  · intro df metric p q rest h hq
    unfold growth
    rw [h]
    simp only [EFloat.sub, EFloat.eabs, EFloat.div, EFloat.mul]
    rw [if_neg (abs_ne_zero.mpr hq)]

/-- Witness for C3 at concrete inputs: a table with revenue periods
(3, 2) gives 50% growth; a table whose previous-period revenue is 0 gives
`nan`; a missing line item gives `nan`. -/
theorem c3_witness :
    growth [("Total Revenue", [EFloat.val 3, EFloat.val 2])] "Total Revenue"
        = EFloat.val 50
    ∧ growth [("Total Revenue", [EFloat.val 3, EFloat.val 0])] "Total Revenue"
        = EFloat.nan
    ∧ growth [("Total Revenue", [EFloat.val 3, EFloat.val 2])] "Diluted EPS"
        = EFloat.nan := by
  refine ⟨?_, ?_, ?_⟩
  · have h := c3_growth_spec.2.2.2
      [("Total Revenue", [EFloat.val 3, EFloat.val 2])] "Total Revenue"
      3 2 [] (by decide) (by decide)
    rw [h]
    norm_num
  · exact c3_growth_spec.2.2.1
      [("Total Revenue", [EFloat.val 3, EFloat.val 0])] "Total Revenue"
      (EFloat.val 3) [] (by decide)
  · exact c3_growth_spec.1
      [("Total Revenue", [EFloat.val 3, EFloat.val 2])] "Diluted EPS" (by decide)

/-- C4: the Sortino function returns `nan` (here `none`) when no element of
the return series falls below the threshold `rf` — in particular when every
element is the same positive constant and `rf = 0` — and when the downside
mean square is zero (zero downside deviation); otherwise it is defined,
representing the finite value `(mean - rf) / √msq` with `msq > 0` the mean
square of the elements below `rf` (so the result is never an infinity and
no division error is ever raised). -/
theorem c4_sortino_spec :
    (∀ (returns : List ℚ) (rf : ℚ), (∀ x ∈ returns, ¬ x < rf) →
        sortino_ratio returns rf = none)
    ∧ (∀ (c : ℚ), 0 < c → ∀ n : ℕ, sortino_ratio (List.replicate n c) 0 = none)
    ∧ (∀ (returns : List ℚ) (rf msq : ℚ), downsideMSq returns rf = some msq →
        (msq = 0 → sortino_ratio returns rf = none)
        ∧ (msq ≠ 0 →
            sortino_ratio returns rf = some (listMean returns - rf, msq)
            ∧ 0 < msq
            ∧ msq = listMean ((downsideOf returns rf).map (fun x => x * x)))) := by
  refine ⟨?_, ?_, ?_⟩
  · intro returns rf h
    have hd : downsideOf returns rf = [] := by
      apply List.filter_eq_nil_iff.mpr
      intro a ha
      simpa using h a ha
    simp [sortino_ratio, downsideMSq, hd]
  · intro c hc n
    have hd : downsideOf (List.replicate n c) 0 = [] := by
      apply List.filter_eq_nil_iff.mpr
      intro a ha
      have ha' : a = c := List.eq_of_mem_replicate ha
      subst ha'
      simp only [decide_eq_true_eq]
      exact not_lt.mpr hc.le
    simp [sortino_ratio, downsideMSq, hd]
  · intro returns rf msq h
    have hmsq : msq = listMean ((downsideOf returns rf).map (fun x => x * x)) := by
      unfold downsideMSq at h
      by_cases he : (downsideOf returns rf).isEmpty
      · simp [he] at h
      · simp [he] at h
        exact h.symm
    have hnonneg : 0 ≤ msq := by
      rw [hmsq]
      unfold listMean
      apply div_nonneg
      · apply List.sum_nonneg
        intro x hx
        obtain ⟨y, _, rfl⟩ := List.mem_map.mp hx
        exact mul_self_nonneg y
      · exact_mod_cast Nat.zero_le _
    exact ⟨fun h0 => by simp [sortino_ratio, h, h0],
      fun h0 => ⟨by simp [sortino_ratio, h, h0],
        lt_of_le_of_ne hnonneg (Ne.symm h0), hmsq⟩⟩

unseal Rat.mul Rat.add Rat.inv in
/-- Witness for C4 at concrete inputs: an all-positive series has no
downside and an all-constant positive series has no downside (both give
`none`); the series `[-1, 1]` with `rf = 0` has downside mean square `1`
and Sortino pair `(0, 1)` (value `0 / √1 = 0`). -/
theorem c4_witness :
    sortino_ratio [1, 2, 3] 0 = none
    ∧ sortino_ratio (List.replicate 10 5) 0 = none
    ∧ sortino_ratio [-1, 1] 0 = some (0, 1) := by
  refine ⟨c4_sortino_spec.1 [1, 2, 3] 0 (by decide),
    c4_sortino_spec.2.1 5 (by decide) 10, ?_⟩
  have h3 := (c4_sortino_spec.2.2 [-1, 1] 0 1 (by decide)).2 (by decide)
  rw [h3.1]
  norm_num [listMean, List.sum_cons, List.sum_nil]

/-- C6: the CROCI function returns `nan` when any of the four required line
items (operating cash flow, capital expenditures, stockholder equity,
total debt) is absent — in any combination — and returns `nan` when the
division raises (invested capital equal to the float zero); when all four
are present with defined values and the division succeeds it returns
`(cfo - capex) / (equity + debt) * 100` from the most recent period. -/
theorem c6_croci_spec :
    (∀ (cash_flow balance : Table),
        (loc0 cash_flow "Total Cash From Operating Activities" = none ∨
         loc0 cash_flow "Capital Expenditures" = none ∨
         loc0 balance "Total Stockholder Equity" = none ∨
         loc0 balance "Total Debt" = none) →
        get_croci cash_flow balance = EFloat.nan)
    ∧ (∀ (cash_flow balance : Table) (cfo capex equity debt : EFloat),
        loc0 cash_flow "Total Cash From Operating Activities" = some cfo →
        loc0 cash_flow "Capital Expenditures" = some capex →
        loc0 balance "Total Stockholder Equity" = some equity →
        loc0 balance "Total Debt" = some debt →
        EFloat.add equity debt = EFloat.val 0 →
        get_croci cash_flow balance = EFloat.nan)
    ∧ (∀ (cash_flow balance : Table) (cfo capex equity debt : ℚ),
        loc0 cash_flow "Total Cash From Operating Activities" = some (EFloat.val cfo) →
        loc0 cash_flow "Capital Expenditures" = some (EFloat.val capex) →
        loc0 balance "Total Stockholder Equity" = some (EFloat.val equity) →
        loc0 balance "Total Debt" = some (EFloat.val debt) →
        equity + debt ≠ 0 →
        get_croci cash_flow balance
          = EFloat.val ((cfo - capex) / (equity + debt) * 100)) := by
  refine ⟨?_, ?_, ?_⟩
  · intro cash_flow balance h
    unfold get_croci
    rcases h with h | h | h | h
    · rw [h]
    · rw [h]
      cases loc0 cash_flow "Total Cash From Operating Activities" <;> rfl
    · rw [h]
      cases loc0 cash_flow "Total Cash From Operating Activities" with
      | none => rfl
      | some cfo =>
        cases loc0 cash_flow "Capital Expenditures" <;> rfl
    · rw [h]
      cases loc0 cash_flow "Total Cash From Operating Activities" with
      | none => rfl
      | some cfo =>
        cases loc0 cash_flow "Capital Expenditures" with
        | none => rfl
        | some capex =>
          cases loc0 balance "Total Stockholder Equity" <;> rfl
  · intro cash_flow balance cfo capex equity debt h1 h2 h3 h4 h5
    simp [get_croci, h1, h2, h3, h4, h5, EFloat.div]
  · intro cash_flow balance cfo capex equity debt h1 h2 h3 h4 h5
    simp [get_croci, h1, h2, h3, h4, EFloat.sub, EFloat.add, EFloat.div,
      EFloat.mul, h5]

set_option maxRecDepth 10000 in
/-- Witness for C6 at concrete inputs: full statement tables give
`(10 - 4) / (2 + 1) * 100 = 200`; an absent line item gives `nan`; a zero
invested capital gives `nan`. -/
theorem c6_witness :
    get_croci
        [("Total Cash From Operating Activities", [EFloat.val 10]),
         ("Capital Expenditures", [EFloat.val 4])]
        [("Total Stockholder Equity", [EFloat.val 2]),
         ("Total Debt", [EFloat.val 1])] = EFloat.val 200
    ∧ get_croci [] [] = EFloat.nan
    ∧ get_croci
        [("Total Cash From Operating Activities", [EFloat.val 10]),
         ("Capital Expenditures", [EFloat.val 4])]
        [("Total Stockholder Equity", [EFloat.val 2]),
         ("Total Debt", [EFloat.val (-2)])] = EFloat.nan := by
  refine ⟨?_, ?_, ?_⟩
  · have h := c6_croci_spec.2.2
      [("Total Cash From Operating Activities", [EFloat.val 10]),
       ("Capital Expenditures", [EFloat.val 4])]
      [("Total Stockholder Equity", [EFloat.val 2]),
       ("Total Debt", [EFloat.val 1])]
      10 4 2 1 (by decide) (by decide) (by decide) (by decide) (by norm_num)
    rw [h]
    norm_num
  · exact c6_croci_spec.1 [] [] (Or.inl (by decide))
  · exact c6_croci_spec.2.1
      [("Total Cash From Operating Activities", [EFloat.val 10]),
       ("Capital Expenditures", [EFloat.val 4])]
      [("Total Stockholder Equity", [EFloat.val 2]),
       ("Total Debt", [EFloat.val (-2)])]
      (EFloat.val 10) (EFloat.val 4) (EFloat.val 2) (EFloat.val (-2))
      (by decide) (by decide) (by decide) (by decide)
      (by simp [EFloat.add])

/-- C7: a ticker whose derived daily return series has fewer than 252
observations produces no Scan Result Record — the evaluator returns the
"no record" outcome, and such a ticker contributes nothing to the
collected Scan Result Set. -/
theorem c7_short_history_skipped :
    (∀ (ticker : String) (fr : FetchResult) (benchmark : Series)
        (thr : Thresholds),
        fr.hist.length < 252 →
        scan_ticker ticker (.ok fr) benchmark thr = none)
    ∧ (∀ (ticker : String) (fr : FetchResult) (benchmark : Series)
        (thr : Thresholds) (pre post : List (String × Except String FetchResult)),
        fr.hist.length < 252 →
        scanLoop (pre ++ (ticker, .ok fr) :: post) benchmark thr
          = scanLoop pre benchmark thr ++ scanLoop post benchmark thr) := by
  have base : ∀ (ticker : String) (fr : FetchResult) (benchmark : Series)
      (thr : Thresholds), fr.hist.length < 252 →
      scan_ticker ticker (.ok fr) benchmark thr = none := by
    intro ticker fr benchmark thr h
    unfold scan_ticker scanBody
    simp [h]
  refine ⟨base, ?_⟩
  intro ticker fr benchmark thr pre post h
  unfold scanLoop
  rw [List.filterMap_append, List.filterMap_cons]
  rw [base ticker fr benchmark thr h]

set_option maxRecDepth 4000 in
/-- Witness for C7 at a concrete input: a ticker with exactly 251 daily
return observations is skipped. -/
theorem c7_witness :
    scan_ticker "T7" (.ok shortFetch) [] defaultThr = none :=
  c7_short_history_skipped.1 "T7" shortFetch [] defaultThr (by decide)

set_option maxRecDepth 10000 in
/-- C8: an exception raised while fetching or computing a ticker's data is
caught at the evaluator boundary and becomes the "no record" outcome for
that ticker only; the scan loop of the remaining tickers is unaffected, so
a scan in which one ticker's evaluation throws collects exactly the
records of the other tickers (the loop is a total function — no exception
escapes it).  Concretely, a 3-ticker scan whose middle fetch throws
collects exactly the two records of the other tickers. -/
theorem c8_fetch_error_contained :
    (∀ (ticker : String) (e : String) (benchmark : Series) (thr : Thresholds),
        scan_ticker ticker (.error e) benchmark thr = none)
    ∧ (∀ (pre post : List (String × Except String FetchResult))
        (ticker : String) (e : String) (benchmark : Series) (thr : Thresholds),
        scanLoop (pre ++ (ticker, .error e) :: post) benchmark thr
          = scanLoop pre benchmark thr ++ scanLoop post benchmark thr)
    ∧ scanLoop [("A", .ok wideFetch), ("B", .error "network error"),
        ("C", .ok wideFetch)] [] defaultThr
        = [undefRecord "A", undefRecord "C"] := by
  have base : ∀ (ticker : String) (e : String) (benchmark : Series)
      (thr : Thresholds), scan_ticker ticker (.error e) benchmark thr = none := by
    intro ticker e benchmark thr
    rfl
  refine ⟨base, ?_, ?_⟩
  · intro pre post ticker e benchmark thr
    unfold scanLoop
    rw [List.filterMap_append, List.filterMap_cons]
    rw [base ticker e benchmark thr]
  · decide

set_option maxRecDepth 10000 in
/-- C10: whenever the ticker evaluator returns a record, the record's
Ticker field equals the input ticker symbol and its Pass field is a
Boolean — `true` or `false`, never undefined or missing; in particular a
ticker whose fetched data makes every metric undefined still yields a
record whose pass flag is the Boolean `false`. -/
theorem c10_record_ticker_and_pass :
    (∀ (ticker : String) (input : Except String FetchResult)
        (benchmark : Series) (thr : Thresholds) (r : Record),
        scan_ticker ticker input benchmark thr = some r →
        r.ticker = ticker ∧ (r.pass = true ∨ r.pass = false))
    ∧ scan_ticker "T10" (.ok wideFetch) [] defaultThr
        = some (undefRecord "T10") := by
  constructor
  · intro ticker input benchmark thr r h
    refine ⟨(scanBody_record (scanBody_of_scan_ticker_eq_some h)).1, ?_⟩
    cases r.pass <;> simp
  · decide

/-- Witness for C10 at a concrete input: the record collected for the
all-undefined fixture carries the input ticker symbol and a Boolean pass
flag. -/
theorem c10_witness :
    (undefRecord "T10").ticker = "T10"
    ∧ ((undefRecord "T10").pass = true ∨ (undefRecord "T10").pass = false) :=
  c10_record_ticker_and_pass.1 "T10" (.ok wideFetch) [] defaultThr
    (undefRecord "T10") c10_record_ticker_and_pass.2

/-- Transitivity of the alpha-descending sort order. -/
lemma alphaDescB_trans (a b c : PresentedRow) :
    alphaDescB a b = true → alphaDescB b c = true → alphaDescB a c = true := by
  unfold alphaDescB
  cases a.alpha <;> cases b.alpha <;> cases c.alpha <;> simp
  exact fun h1 h2 => le_trans h2 h1

/-- Totality of the alpha-descending sort order. -/
lemma alphaDescB_total (a b : PresentedRow) :
    (alphaDescB a b || alphaDescB b a) = true := by
  unfold alphaDescB
  cases a.alpha <;> cases b.alpha <;> simp
  exact le_total _ _

/-- C9: the presented result is obtained by keeping exactly the collected
records whose pass flag is true, dropping the pass flag, and ordering by
alpha descending: it is a permutation of the pass-filtered, flag-dropped
rows, pairwise non-increasing in alpha, and membership is exactly
"some collected record passed and maps to this row"; three passing records
with alphas 0.01, 0.05, 0.03 are presented in the order 0.05, 0.03, 0.01. -/
theorem c9_presented_results :
    (∀ rows : List Record,
        (presentResults rows).Perm
          ((rows.filter (fun r => r.pass)).map dropPass))
    ∧ (∀ rows : List Record,
        (presentResults rows).Pairwise (fun a b => alphaDescB a b = true))
    ∧ (∀ (rows : List Record) (p : PresentedRow),
        p ∈ presentResults rows ↔
          ∃ r, r ∈ rows ∧ r.pass = true ∧ dropPass r = p)
    ∧ (presentResults
        [{ ticker := "A", pe := .nan, ev := .nan, rev := .nan, eps := .nan,
           sortino := none, alpha := .val (1/100), croci := .nan, pass := true },
         { ticker := "B", pe := .nan, ev := .nan, rev := .nan, eps := .nan,
           sortino := none, alpha := .val (5/100), croci := .nan, pass := true },
         { ticker := "C", pe := .nan, ev := .nan, rev := .nan, eps := .nan,
           sortino := none, alpha := .val (3/100), croci := .nan, pass := true }]).map
        (fun p => p.alpha)
        = [EFloat.val (5/100), EFloat.val (3/100), EFloat.val (1/100)] := by
  refine ⟨?_, ?_, ?_, ?_⟩
  · intro rows
    exact List.mergeSort_perm _ _
  · intro rows
    exact List.sorted_mergeSort alphaDescB_trans alphaDescB_total _
  · intro rows p
    unfold presentResults
    rw [List.Perm.mem_iff (List.mergeSort_perm _ _)]
    simp only [List.mem_map, List.mem_filter]
    constructor
    · rintro ⟨r, ⟨hr, hp⟩, hd⟩
      exact ⟨r, hr, hp, hd⟩
    · rintro ⟨r, hr, hp, hd⟩
      exact ⟨r, ⟨hr, hp⟩, hd⟩
  · norm_num [presentResults, List.mergeSort, List.filter, dropPass, alphaDescB]

/-- Closed form of the residual sum in terms of the component sums. -/
lemma residSum_eq (l : List (ℚ × ℚ)) (a b : ℚ) :
    residSum l a b = sumY l - ((l.length : ℚ) * a + b * sumX l) := by
  induction l with
  | nil => simp [residSum, sumY, sumX]
  | cons p t ih =>
    simp only [residSum, sumY, sumX, List.map_cons, List.sum_cons,
      List.length_cons, Nat.cast_add, Nat.cast_one] at ih ⊢
    rw [ih]
    ring

/-- Closed form of the x-weighted residual sum in terms of the component
sums. -/
lemma residSumX_eq (l : List (ℚ × ℚ)) (a b : ℚ) :
    residSumX l a b = sumXY l - (a * sumX l + b * sumXX l) := by
  induction l with
  | nil => simp [residSumX, sumXY, sumX, sumXX]
  | cons p t ih =>
    simp only [residSumX, sumXY, sumX, sumXX, List.map_cons, List.sum_cons,
      List.length_cons, Nat.cast_add, Nat.cast_one] at ih ⊢
    rw [ih]
    ring

/-- Expansion of the centred sum of squares of the x-components. -/
lemma sum_sq_sub_eq (l : List (ℚ × ℚ)) (m : ℚ) :
    (l.map (fun p => (p.2 - m) * (p.2 - m))).sum
      = sumXX l - 2 * m * sumX l + (l.length : ℚ) * (m * m) := by
  induction l with
  | nil => simp [sumXX, sumX]
  | cons p t ih =>
    simp only [sumXX, sumX, List.map_cons, List.sum_cons,
      List.length_cons, Nat.cast_add, Nat.cast_one] at ih ⊢
    rw [ih]
    ring

/-- When not all x-values of a nonempty aligned series are equal, the OLS
determinant `n·Σx² − (Σx)²` is strictly positive. -/
lemma det_pos_of_not_const (l : List (ℚ × ℚ)) (hne : l ≠ [])
    (h : ¬ ∀ p ∈ l, p.2 = l.headI.2) :
    0 < (l.length : ℚ) * sumXX l - sumX l * sumX l := by
  have hn0 : 0 < l.length := List.length_pos.mpr hne
  have hn : (0 : ℚ) < (l.length : ℚ) := by exact_mod_cast hn0
  have hterm : ∀ x ∈ l.map (fun p =>
      (p.2 - sumX l / l.length) * (p.2 - sumX l / l.length)), 0 ≤ x := by
    intro x hx
    obtain ⟨q, _, rfl⟩ := List.mem_map.mp hx
    exact mul_self_nonneg _
  have hsnn : 0 ≤ (l.map (fun p =>
      (p.2 - sumX l / l.length) * (p.2 - sumX l / l.length))).sum :=
    List.sum_nonneg hterm
  have hs_ne : (l.map (fun p =>
      (p.2 - sumX l / l.length) * (p.2 - sumX l / l.length))).sum ≠ 0 := by
    intro h0
    apply h
    have hallm : ∀ p ∈ l, p.2 = sumX l / l.length := by
      intro p hp
      have hmem := List.mem_map_of_mem
        (fun p => (p.2 - sumX l / l.length) * (p.2 - sumX l / l.length)) hp
      have hle := List.single_le_sum hterm _ hmem
      rw [h0] at hle
      have hz : (p.2 - sumX l / l.length) * (p.2 - sumX l / l.length) = 0 :=
        le_antisymm hle (mul_self_nonneg _)
      have := mul_self_eq_zero.mp hz
      linarith
    obtain ⟨p0, t, rfl⟩ := List.exists_cons_of_ne_nil hne
    intro p hp
    have hh : (p0 :: t).headI.2 = p0.2 := rfl
    rw [hallm p hp, hh, hallm p0 (List.mem_cons_self p0 t)]
  have hspos : 0 < (l.map (fun p =>
      (p.2 - sumX l / l.length) * (p.2 - sumX l / l.length))).sum :=
    lt_of_le_of_ne hsnn (Ne.symm hs_ne)
  have hsum := sum_sq_sub_eq l (sumX l / l.length)
  have hkey : (l.length : ℚ) * sumXX l - sumX l * sumX l
      = (l.length : ℚ) * (l.map (fun p =>
          (p.2 - sumX l / l.length) * (p.2 - sumX l / l.length))).sum := by
    rw [hsum]
    field_simp
    ring
  rw [hkey]
  exact mul_pos hn hspos

/-- The OLS slope and intercept computed by `linregress` satisfy the two
normal equations. -/
lemma ols_normal_equations (l : List (ℚ × ℚ))
    (hn : (l.length : ℚ) ≠ 0)
    (hD : (l.length : ℚ) * sumXX l - sumX l * sumX l ≠ 0) :
    residSum l (olsIntercept l) (olsSlope l) = 0
    ∧ residSumX l (olsIntercept l) (olsSlope l) = 0 := by
  have hslope : olsSlope l * ((l.length : ℚ) * sumXX l - sumX l * sumX l)
      = (l.length : ℚ) * sumXY l - sumX l * sumY l := by
    unfold olsSlope
    exact div_mul_cancel₀ _ hD
  have hicept : olsIntercept l * (l.length : ℚ)
      = sumY l - olsSlope l * sumX l := by
    unfold olsIntercept
    exact div_mul_cancel₀ _ hn
  constructor
  · rw [residSum_eq]
    linear_combination -hicept
  · have h2 : (l.length : ℚ) *
        (sumXY l - (olsIntercept l * sumX l + olsSlope l * sumXX l)) = 0 := by
      linear_combination (-(sumX l)) * hicept - hslope
    rcases mul_eq_zero.mp h2 with h | h
    · exact absurd h hn
    · rw [residSumX_eq]
      exact h

/-- The normal equations have a unique solution when the OLS determinant is
nonzero, so the intercept returned by `linregress` is THE least-squares
intercept. -/
lemma normal_equations_unique (l : List (ℚ × ℚ))
    (hn : (l.length : ℚ) ≠ 0)
    (hD : (l.length : ℚ) * sumXX l - sumX l * sumX l ≠ 0)
    (a b a' b' : ℚ)
    (h1 : residSum l a b = 0) (h2 : residSumX l a b = 0)
    (h1' : residSum l a' b' = 0) (h2' : residSumX l a' b' = 0) :
    a = a' ∧ b = b' := by
  rw [residSum_eq] at h1 h1'
  rw [residSumX_eq] at h2 h2'
  have e1 : (l.length : ℚ) * (a - a') + (b - b') * sumX l = 0 := by
    linear_combination h1' - h1
  have e2 : sumX l * (a - a') + (b - b') * sumXX l = 0 := by
    linear_combination h2' - h2
  have key : (b - b') * ((l.length : ℚ) * sumXX l - sumX l * sumX l) = 0 := by
    linear_combination (l.length : ℚ) * e2 - sumX l * e1
  have hb : b = b' := by
    rcases mul_eq_zero.mp key with h | h
    · linarith [sub_eq_zero.mp h]
    · exact absurd h hD
  have ha : a = a' := by
    subst hb
    have e1' : (l.length : ℚ) * (a - a') = 0 := by linear_combination e1
    rcases mul_eq_zero.mp e1' with h | h
    · exact absurd h hn
    · linarith [sub_eq_zero.mp h]
  exact ⟨ha, hb⟩

/-- Evaluation of `get_alpha` on the defined path: at least 30 aligned
observations and non-identical benchmark values give the OLS intercept. -/
lemma get_alpha_defined (returns benchmark : Series)
    (h1 : ¬ (alignSeries returns benchmark).length < 30)
    (h2 : (alignSeries returns benchmark).all
        (fun p => p.2 == (alignSeries returns benchmark).headI.2) = false) :
    get_alpha returns benchmark
      = .ok (EFloat.val (olsIntercept (alignSeries returns benchmark))) := by
  unfold get_alpha
  simp [h1, h2]

/-- C5: the annualized alpha is undefined whenever the date-aligned inner
join of the two series has fewer than 30 observations, regardless of the
series content; with at least 30 aligned observations (and the benchmark
values not all identical, without which `linregress` has no intercept and
raises), `get_alpha` returns the unique ordinary-least-squares intercept
`a` of ticker-return on benchmark-return — characterized by the two normal
equations — and annualization multiplies it linearly by 252. -/
theorem c5_alpha_spec :
    (∀ (returns benchmark : Series),
        (alignSeries returns benchmark).length < 30 →
        get_alpha returns benchmark = .ok EFloat.nan
        ∧ annualise EFloat.nan 252 = EFloat.nan)
    ∧ (∀ (returns benchmark : Series),
        30 ≤ (alignSeries returns benchmark).length →
        ¬ (∀ p ∈ alignSeries returns benchmark,
            p.2 = (alignSeries returns benchmark).headI.2) →
        ∃ a b : ℚ,
          residSum (alignSeries returns benchmark) a b = 0
          ∧ residSumX (alignSeries returns benchmark) a b = 0
          ∧ (∀ a' b' : ℚ,
              residSum (alignSeries returns benchmark) a' b' = 0 →
              residSumX (alignSeries returns benchmark) a' b' = 0 →
              a' = a ∧ b' = b)
          ∧ get_alpha returns benchmark = .ok (EFloat.val a)
          ∧ annualise (EFloat.val a) 252 = EFloat.val (a * 252)) := by
  constructor
  · intro returns benchmark h
    refine ⟨?_, rfl⟩
    unfold get_alpha
    simp [h]
  · intro returns benchmark h1 h2
    have hlen : ¬ (alignSeries returns benchmark).length < 30 := not_lt.mpr h1
    have hne : alignSeries returns benchmark ≠ [] := by
      intro h0
      rw [h0] at h1
      simp at h1
    have hn : ((alignSeries returns benchmark).length : ℚ) ≠ 0 := by
      have hp : 0 < (alignSeries returns benchmark).length :=
        List.length_pos.mpr hne
      exact_mod_cast hp.ne'
    have hD : ((alignSeries returns benchmark).length : ℚ)
        * sumXX (alignSeries returns benchmark)
        - sumX (alignSeries returns benchmark)
          * sumX (alignSeries returns benchmark) ≠ 0 :=
      ne_of_gt (det_pos_of_not_const _ hne h2)
    have hall : (alignSeries returns benchmark).all
        (fun p => p.2 == (alignSeries returns benchmark).headI.2) = false := by
      by_contra hc
      rw [Bool.not_eq_false] at hc
      exact h2 (fun p hp => eq_of_beq (List.all_eq_true.mp hc p hp))
    obtain ⟨hr1, hr2⟩ := ols_normal_equations _ hn hD
    refine ⟨olsIntercept (alignSeries returns benchmark),
      olsSlope (alignSeries returns benchmark), hr1, hr2, ?_, ?_, rfl⟩
    · intro a b ha hb
      exact normal_equations_unique _ hn hD a b _ _ ha hb hr1 hr2
    · exact get_alpha_defined returns benchmark hlen hall

set_option maxRecDepth 40000 in
/-- Witness for C5 at concrete inputs: two empty series align to an empty
(under-30) overlap and give `nan`; a 31-day ramp series regressed on
itself has at least 30 aligned observations with non-identical benchmark
values, and the theorem produces its unique OLS intercept. -/
theorem c5_witness :
    (get_alpha [] [] = .ok EFloat.nan ∧ annualise EFloat.nan 252 = EFloat.nan)
    ∧ ∃ a b : ℚ,
        residSum (alignSeries rampSeries rampSeries) a b = 0
        ∧ residSumX (alignSeries rampSeries rampSeries) a b = 0
        ∧ (∀ a' b' : ℚ,
            residSum (alignSeries rampSeries rampSeries) a' b' = 0 →
            residSumX (alignSeries rampSeries rampSeries) a' b' = 0 →
            a' = a ∧ b' = b)
        ∧ get_alpha rampSeries rampSeries = .ok (EFloat.val a)
        ∧ annualise (EFloat.val a) 252 = EFloat.val (a * 252) :=
  ⟨c5_alpha_spec.1 [] [] (by decide),
   c5_alpha_spec.2 rampSeries rampSeries (by decide) (by decide)⟩
